import Mathlib

/-!
Shallow embedding of the navigation core of the `railway` repository
(`src/useRailwayProviderValue.ts`), together with theorems settling the
behavioural claims about it.

JavaScript `Map` objects are modelled as insertion-ordered association
lists (`List (String × β)`); `Map.set` keeps the position of an existing
key and appends a fresh one, `Map.delete` removes the key, iteration is
list order — exactly the iteration/update semantics of the source.
Positions are pairs of integers.  The opaque render payload and the
opaque navigation context are type parameters `ρ` and `κ`; an absent
(`undefined`) context argument is `none`.
-/

namespace Railway

/-- `TrackPosition` from the source: a pair `[x, y]` of numbers. -/
abbrev TrackPosition := Int × Int

/-- `TrackDefinition` from the source: `{ position, render }`, the render
payload being opaque to the core. -/
structure TrackDefinition (ρ : Type) where
  position : TrackPosition
  render : ρ
deriving DecidableEq

/-- `TrackMap = Map<string, TrackDefinition>`, as an insertion-ordered
association list. -/
abbrev TrackMap (ρ : Type) := List (String × TrackDefinition ρ)

/-- `TrackIterDefinition` from the source: `{ id } & TrackDefinition`. -/
structure TrackIterDefinition (ρ : Type) where
  id : String
  position : TrackPosition
  render : ρ
deriving DecidableEq

/-- JavaScript `Map.prototype.has` on the association-list model. -/
def mapHas {β : Type} (m : List (String × β)) (k : String) : Bool :=
  m.any (fun e => e.1 == k)

/-- JavaScript `Map.prototype.get` on the association-list model
(`none` = `undefined`). -/
def mapGet {β : Type} (m : List (String × β)) (k : String) : Option β :=
  (m.find? (fun e => e.1 == k)).map Prod.snd

/-- JavaScript `Map.prototype.set`: an existing key keeps its position in
iteration order, a new key is appended. -/
def mapSet {β : Type} (m : List (String × β)) (k : String) (v : β) :
    List (String × β) :=
  if mapHas m k then m.map (fun e => if e.1 == k then (k, v) else e)
  else m ++ [(k, v)]

/-- JavaScript `Map.prototype.delete` (the resulting map; the returned
boolean is irrelevant here). -/
def mapDelete {β : Type} (m : List (String × β)) (k : String) :
    List (String × β) :=
  m.filter (fun e => e.1 != k)

/-- `getTracksFromMap(mapA, setOfUserMaps)` from the source.  Note that
`existingPositions` is computed ONCE from `mapA` before the overlay loop
and never updated afterwards, exactly as in the source (lines 16 and
31-42): the position-conflict scan runs only against the base map's
positions, not against overlay entries already accepted into `unionMap`.
The name-conflict check, by contrast, does consult the accumulating
`unionMap`. -/
def getTracksFromMap {ρ : Type} (mapA : TrackMap ρ)
    (setOfUserMaps : List (String × TrackMap ρ)) :
    List (TrackIterDefinition ρ) :=
  let existingPositions := mapA.map (fun e => e.2.position)
  let unionMap := setOfUserMaps.foldl
    (fun acc ownerPair =>
      ownerPair.2.foldl
        (fun acc2 e =>
          if mapHas acc2 e.1 then acc2
          else if existingPositions.any
              (fun p => p.1 == e.2.position.1 && p.2 == e.2.position.2) then acc2
          else acc2 ++ [e])
        acc)
    mapA
  unionMap.map (fun e => ⟨e.1, e.2.position, e.2.render⟩)

/-- The state held by `useRailwayProviderValue`: the base track map
passed to the hook, the journey stack, the current position, the
owner-keyed overlay maps, and the context map.  Context values are
`Option κ` because `navigateToView` may store `undefined`. -/
structure RailwayState (ρ κ : Type) where
  defaultTracks : TrackMap ρ
  journeyStack : List String
  currentPosition : TrackPosition
  userDefinedTrackMaps : List (String × TrackMap ρ)
  contextMap : List (String × Option κ)
deriving DecidableEq

/-- `allTracksAsList = getTracksFromMap(defaultTracks, userDefinedTrackMaps)`. -/
def allTracksAsList {ρ κ : Type} (s : RailwayState ρ κ) :
    List (TrackIterDefinition ρ) :=
  getTracksFromMap s.defaultTracks s.userDefinedTrackMaps

/-- `findById` from the source, as the predicate passed to `find`. -/
def findById {ρ : Type} (id : String) : TrackIterDefinition ρ → Bool :=
  fun track => track.id == id

/-- `currentTrack`: the flattened entry whose position equals
`currentPosition`, component-wise as in the source. -/
def currentTrack {ρ κ : Type} (s : RailwayState ρ κ) :
    Option (TrackIterDefinition ρ) :=
  (allTracksAsList s).find?
    (fun item => item.position.1 == s.currentPosition.1 &&
      item.position.2 == s.currentPosition.2)

/-- `journeyStack[journeyStack.length - 2] || null` from the source.
With fewer than 2 entries the index is out of range (`undefined`, hence
`null`); an empty-string entry is falsy in JavaScript, so it too yields
`null`. -/
def previousTrackId (stack : List String) : Option String :=
  if stack.length < 2 then none
  else
    match stack.get? (stack.length - 2) with
    | none => none
    | some pid => if pid = "" then none else some pid

/-- `returnDirection`: `none` models `null`; otherwise one of the strings
`"left"`, `"right"`, `"top"` the source returns. -/
def returnDirection {ρ κ : Type} (s : RailwayState ρ κ) : Option String :=
  match previousTrackId s.journeyStack with
  | none => none
  | some previousTrackId =>
    match (allTracksAsList s).find? (findById previousTrackId),
        currentTrack s with
    | some previousTrack, some _ =>
      let dX := previousTrack.position.1 - s.currentPosition.1
      if dX < 0 then some "left"
      else if dX > 0 then some "right"
      else some "top"
    | _, _ => none

/-- `navigateToView(id, context?)` from the source: an unresolved id only
logs and returns; a resolved one stores the context (possibly
`undefined`), appends the id to the journey stack and moves the current
position. -/
def navigateToView {ρ κ : Type} (s : RailwayState ρ κ) (id : String)
    (context : Option κ) : RailwayState ρ κ :=
  match (allTracksAsList s).find? (findById id) with
  | none => s
  | some matchingTrack =>
    { s with
      contextMap := mapSet s.contextMap matchingTrack.id context,
      journeyStack := s.journeyStack ++ [matchingTrack.id],
      currentPosition := matchingTrack.position }

/-- `returnToLast()` from the source: `journeyStack.slice(0, -1)` is
`List.dropLast`. -/
def returnToLast {ρ κ : Type} (s : RailwayState ρ κ) : RailwayState ρ κ :=
  match previousTrackId s.journeyStack with
  | none => s
  | some previousId =>
    match (allTracksAsList s).find? (findById previousId) with
    | none => s
    | some matchingTrack =>
      { s with
        journeyStack := s.journeyStack.dropLast,
        currentPosition := matchingTrack.position }

/-- `a || b` on a possibly-undefined JavaScript number `a`: `undefined`
and `0` are falsy. -/
def jsOrInt (a : Option Int) (b : Int) : Int :=
  match a with
  | none => b
  | some x => if x = 0 then b else x

/-- `registerNewTracks(id, initialTrackMap, userStartPosition?)` from the
source.  The offsets are `userStartPosition?.[k] || currentPosition?.[k]
|| 0`, with JavaScript falsiness: a zero coordinate of the provided
anchor falls through to the current position. -/
def registerNewTracks {ρ κ : Type} (s : RailwayState ρ κ) (id : String)
    (initialTrackMap : TrackMap ρ) (userStartPosition : Option TrackPosition) :
    RailwayState ρ κ :=
  let offsetX := jsOrInt (userStartPosition.map Prod.fst)
    (jsOrInt (some s.currentPosition.1) 0)
  let offsetY := jsOrInt (userStartPosition.map Prod.snd)
    (jsOrInt (some s.currentPosition.2) 0)
  let userTargetMap := initialTrackMap.foldl
    (fun acc e =>
      mapSet acc e.1
        ⟨(offsetX + e.2.position.1, offsetY + e.2.position.2), e.2.render⟩)
    []
  { s with
    userDefinedTrackMaps := mapSet s.userDefinedTrackMaps id userTargetMap }

/-- `deregisterTracks(id)` from the source.  `!id` is true for a missing
argument and for the empty string; the owner path deletes the context
entries for the keys of the owner's stored overlay, then removes the
overlay. -/
def deregisterTracks {ρ κ : Type} (s : RailwayState ρ κ) :
    Option String → RailwayState ρ κ
  | none => { s with userDefinedTrackMaps := [] }
  | some o =>
    if o = "" then { s with userDefinedTrackMaps := [] }
    else
      let keysToRemove :=
        match mapGet s.userDefinedTrackMaps o with
        | some m => m.map Prod.fst
        | none => []
      { s with
        contextMap := keysToRemove.foldl (fun acc k => mapDelete acc k)
          s.contextMap,
        userDefinedTrackMaps := mapDelete s.userDefinedTrackMaps o }

/-- The hook's initial state: `journeyStack = ['start']`,
`currentPosition = [0, 0]`, empty overlay collection and context map. -/
def initialState {ρ κ : Type} (defaultTracks : TrackMap ρ) :
    RailwayState ρ κ :=
  { defaultTracks := defaultTracks
    journeyStack := ["start"]
    currentPosition := (0, 0)
    userDefinedTrackMaps := []
    contextMap := [] }

/-- One call into the provider value, for reasoning about reachable
states. -/
inductive RailAction (ρ κ : Type) where
  | navigate (id : String) (context : Option κ)
  | back
  | register (ownerId : String) (m : TrackMap ρ) (anchor : Option TrackPosition)
  | deregister (ownerId : Option String)

/-- Apply one action to the state. -/
def applyAction {ρ κ : Type} (s : RailwayState ρ κ) :
    RailAction ρ κ → RailwayState ρ κ
  | .navigate id context => navigateToView s id context
  | .back => returnToLast s
  | .register ownerId m anchor => registerNewTracks s ownerId m anchor
  | .deregister ownerId => deregisterTracks s ownerId

/-- Run a sequence of actions from a state. -/
def runActions {ρ κ : Type} (s : RailwayState ρ κ)
    (actions : List (RailAction ρ κ)) : RailwayState ρ κ :=
  actions.foldl applyAction s

end Railway

namespace Railway

/-! ### Helper lemmas about the JavaScript-`Map` model -/

theorem find?_append_singleton_of_none {β : Type} (m : List (String × β))
    (k : String) (v : β) (h : m.find? (fun e => e.1 == k) = none) :
    (m ++ [(k, v)]).find? (fun e => e.1 == k) = some (k, v) := by
  induction m with
  | nil => simp
  | cons e m ih =>
    cases hk : (e.1 == k) with
    | true =>
      rw [List.find?_cons_of_pos (p := fun x : String × β => x.1 == k) m hk] at h
      exact absurd h (by simp)
    | false =>
      rw [List.cons_append,
        List.find?_cons_of_neg (p := fun x : String × β => x.1 == k) _ (by simp [hk])]
      apply ih
      rwa [List.find?_cons_of_neg (p := fun x : String × β => x.1 == k) m (by simp [hk])] at h

theorem find?_map_set_of_has {β : Type} (m : List (String × β))
    (k : String) (v : β) (h : mapHas m k = true) :
    (m.map (fun e => if e.1 == k then (k, v) else e)).find?
      (fun e => e.1 == k) = some (k, v) := by
  induction m with
  | nil => simp [mapHas] at h
  | cons e m ih =>
    rw [List.map_cons]
    cases hk : (e.1 == k) with
    | true =>
      rw [if_pos rfl, List.find?_cons_of_pos (p := fun x : String × β => x.1 == k) _ (by simp)]
    | false =>
      rw [if_neg (by simp [hk]),
        List.find?_cons_of_neg (p := fun x : String × β => x.1 == k) _ (by simp [hk])]
      apply ih
      have hcons : ((e.1 == k) || mapHas m k) = true := by
        simpa [mapHas, List.any_cons] using h
      simpa [hk] using hcons

/-- Looking up the key just stored with `mapSet` yields the stored value. -/
theorem mapGet_mapSet_self {β : Type} (m : List (String × β)) (k : String)
    (v : β) : mapGet (mapSet m k v) k = some v := by
  unfold mapSet
  cases hh : mapHas m k with
  | true =>
    rw [if_pos rfl]
    unfold mapGet
    rw [find?_map_set_of_has m k v hh]
    rfl
  | false =>
    rw [if_neg (by simp)]
    unfold mapGet
    have hnone : m.find? (fun e => e.1 == k) = none := by
      rw [List.find?_eq_none]
      intro x hx hxk
      have hmem : mapHas m k = true := by
        unfold mapHas
        rw [List.any_eq_true]
        exact ⟨x, hx, hxk⟩
      rw [hmem] at hh
      exact absurd hh (by simp)
    rw [find?_append_singleton_of_none m k v hnone]
    rfl

/-- `mapDelete` removes exactly the entries with the given key. -/
theorem mapGet_mapDelete {β : Type} (m : List (String × β)) (k k' : String) :
    mapGet (mapDelete m k) k' = if k' = k then none else mapGet m k' := by
  induction m with
  | nil => simp [mapGet, mapDelete]
  | cons e m ih =>
    unfold mapDelete at ih ⊢
    rw [List.filter_cons]
    by_cases hek : e.1 = k
    · rw [if_neg (by simp [hek])]
      rw [ih]
      by_cases hk : k' = k
      · rw [if_pos hk, if_pos hk]
      · rw [if_neg hk, if_neg hk]
        unfold mapGet
        rw [List.find?_cons_of_neg (p := fun x : String × β => x.1 == k') m
          (by simp only [hek, beq_iff_eq]; exact fun h => hk h.symm)]
    · rw [if_pos (by simp [hek])]
      unfold mapGet at ih ⊢
      cases hk' : (e.1 == k') with
      | true =>
        rw [List.find?_cons_of_pos (p := fun x : String × β => x.1 == k') _ hk',
          List.find?_cons_of_pos (p := fun x : String × β => x.1 == k') m hk']
        have hkk : ¬ k' = k := by
          intro hkk
          exact hek (by rw [beq_iff_eq.mp hk', hkk])
        rw [if_neg hkk]
      | false =>
        rw [List.find?_cons_of_neg (p := fun x : String × β => x.1 == k') _ (by simp [hk']),
          List.find?_cons_of_neg (p := fun x : String × β => x.1 == k') m (by simp [hk'])]
        exact ih

/-- Folding `mapDelete` over a list of keys removes exactly those keys. -/
theorem mapGet_foldl_mapDelete {β : Type} (ks : List String)
    (m : List (String × β)) (k : String) :
    mapGet (ks.foldl (fun acc x => mapDelete acc x) m) k =
      if k ∈ ks then none else mapGet m k := by
  induction ks generalizing m with
  | nil => simp
  | cons x ks ih =>
    rw [List.foldl_cons, ih]
    by_cases hks : k ∈ ks
    · simp [hks]
    · rw [if_neg hks, mapGet_mapDelete]
      by_cases hx : k = x
      · simp [hx]
      · simp [hx, hks]

/-- Deleting an absent key leaves the map unchanged. -/
theorem mapDelete_of_mapGet_none {β : Type} (m : List (String × β))
    (k : String) (h : mapGet m k = none) : mapDelete m k = m := by
  unfold mapGet at h
  have hfind : m.find? (fun e => e.1 == k) = none := by
    cases hf : m.find? (fun e => e.1 == k) with
    | none => rfl
    | some v => rw [hf] at h; exact absurd h (by simp)
  rw [List.find?_eq_none] at hfind
  unfold mapDelete
  rw [List.filter_eq_self]
  intro e he
  have := hfind e he
  simpa using this

/-- A track found by `findById id` has that id. -/
theorem findById_id_eq {ρ : Type} (l : List (TrackIterDefinition ρ))
    (id : String) (t : TrackIterDefinition ρ)
    (h : l.find? (findById id) = some t) : t.id = id := by
  have := List.find?_some h
  unfold findById at this
  exact beq_iff_eq.mp this

/-- `previousTrackId` only resolves on stacks of length at least 2. -/
theorem previousTrackId_some_two_le (stack : List String) (pid : String)
    (h : previousTrackId stack = some pid) : 2 ≤ stack.length := by
  unfold previousTrackId at h
  by_cases hl : stack.length < 2
  · rw [if_pos hl] at h; exact absurd h (by simp)
  · omega

/-- Reattaching the last element after `dropLast` restores the list. -/
theorem dropLast_append_getLast?_eq (l : List String) (a : String)
    (h : l.getLast? = some a) : l.dropLast ++ [a] = l := by
  induction l with
  | nil => simp at h
  | cons x l ih =>
    cases l with
    | nil => simp_all
    | cons y l =>
      rw [List.getLast?_cons_cons] at h
      have := ih h
      simpa [List.dropLast_cons₂] using this


/-! ### Concrete example data -/

/-- A base map holding only the conventional start view at the origin. -/
def demoBase : TrackMap Nat := [("start", ⟨(0, 0), 0⟩)]

/-- A provider state at position (3, 3), for exercising anchor resolution. -/
def regDemoState : RailwayState Nat Nat :=
  { defaultTracks := demoBase
    journeyStack := ["start"]
    currentPosition := (3, 3)
    userDefinedTrackMaps := []
    contextMap := [] }

/-! ### Claims -/

/-- C1: the flattened registry is claimed to contain no two entries at the
same (x, y) because every candidate is checked against all positions in
the accumulating result.  The code freezes `existingPositions` before the
overlay loop, so two overlay entries at the same position are both
admitted: with base `start` at (0, 0) and one overlay holding `a` and `b`
both at (5, 5), the flattened output contains both, and its position list
is not duplicate-free. -/
theorem getTracksFromMap_admits_position_conflict :
    ((getTracksFromMap demoBase
        [("o", [("a", ⟨(5, 5), 1⟩), ("b", ⟨(5, 5), 2⟩)])]).map
      (fun t => (t.id, t.position)) =
      [("start", ((0 : Int), (0 : Int))), ("a", (5, 5)), ("b", (5, 5))]) ∧
    ¬ ((getTracksFromMap demoBase
        [("o", [("a", ⟨(5, 5), 1⟩), ("b", ⟨(5, 5), 2⟩)])]).map
      (fun t => t.position)).Nodup := by
  decide

/-- C2: the claim says a provided anchor is used even when a coordinate
equals 0.  The code computes the offsets with JavaScript `||`, so a zero
anchor coordinate falls back to the current position: from (3, 3), an
anchor of (0, 5) translates a track at relative (1, 1) to (4, 6) — the x
offset came from the current position — instead of the claimed (1, 6). -/
theorem registerNewTracks_zero_anchor_coordinate_falls_back :
    (registerNewTracks regDemoState "o" [("a", ⟨(1, 1), 7⟩)]
        (some ((0 : Int), (5 : Int)))).userDefinedTrackMaps =
      [("o", [("a", ⟨(4, 6), 7⟩)])] := by
  decide

/-- C3: for an id resolving in the flattened registry, `navigateToView`
stores the context under that id (overwriting, even when the context is
absent), appends exactly that id to the journey stack, and sets the
current position to the view's position; the base map and overlay
collection are untouched. -/
theorem navigateToView_valid_updates {ρ κ : Type} (s : RailwayState ρ κ)
    (id : String) (context : Option κ) (t : TrackIterDefinition ρ)
    (h : (allTracksAsList s).find? (findById id) = some t) :
    (navigateToView s id context).journeyStack = s.journeyStack ++ [id] ∧
    (navigateToView s id context).currentPosition = t.position ∧
    (navigateToView s id context).contextMap =
      mapSet s.contextMap id context ∧
    mapGet (navigateToView s id context).contextMap id = some context ∧
    (navigateToView s id context).defaultTracks = s.defaultTracks ∧
    (navigateToView s id context).userDefinedTrackMaps =
      s.userDefinedTrackMaps := by
  have hid : t.id = id := findById_id_eq _ id t h
  have hmain : navigateToView s id context =
      { s with contextMap := mapSet s.contextMap t.id context,
               journeyStack := s.journeyStack ++ [t.id],
               currentPosition := t.position } := by
    unfold navigateToView
    rw [h]
  refine ⟨?_, ?_, ?_, ?_, ?_, ?_⟩ <;> rw [hmain] <;>
    simp [hid, mapGet_mapSet_self]

/-- Witness for the C3 theorem: navigating from the initial state to
`start` with context 7. -/
theorem navigateToView_valid_updates_witness :
    (navigateToView (initialState demoBase : RailwayState Nat Nat) "start"
        (some 7)).journeyStack =
      (initialState demoBase : RailwayState Nat Nat).journeyStack ++
        ["start"] ∧
    (navigateToView (initialState demoBase : RailwayState Nat Nat) "start"
        (some 7)).currentPosition = ((0 : Int), (0 : Int)) ∧
    (navigateToView (initialState demoBase : RailwayState Nat Nat) "start"
        (some 7)).contextMap =
      mapSet (initialState demoBase : RailwayState Nat Nat).contextMap
        "start" (some 7) ∧
    mapGet (navigateToView (initialState demoBase : RailwayState Nat Nat)
        "start" (some 7)).contextMap "start" = some (some 7) ∧
    (navigateToView (initialState demoBase : RailwayState Nat Nat) "start"
        (some 7)).defaultTracks =
      (initialState demoBase : RailwayState Nat Nat).defaultTracks ∧
    (navigateToView (initialState demoBase : RailwayState Nat Nat) "start"
        (some 7)).userDefinedTrackMaps =
      (initialState demoBase : RailwayState Nat Nat).userDefinedTrackMaps :=
  navigateToView_valid_updates (initialState demoBase) "start" (some 7)
    ⟨"start", (0, 0), 0⟩ (by decide)

/-- C4: for an id absent from the flattened registry, `navigateToView`
is a pure no-op: the whole state — journey stack, current position,
context map included — is returned unchanged. -/
theorem navigateToView_invalid_noop {ρ κ : Type} (s : RailwayState ρ κ)
    (id : String) (context : Option κ)
    (h : (allTracksAsList s).find? (findById id) = none) :
    navigateToView s id context = s := by
  unfold navigateToView
  rw [h]

/-- Witness for the C4 theorem: navigating to a missing id from the
initial state. -/
theorem navigateToView_invalid_noop_witness :
    navigateToView (initialState demoBase : RailwayState Nat Nat) "missing"
        (some 7) = initialState demoBase :=
  navigateToView_invalid_noop (initialState demoBase) "missing" (some 7)
    (by decide)


/-- `previousTrackId` on a short stack is `none`. -/
theorem previousTrackId_eq_none_of_lt (stack : List String)
    (h : stack.length < 2) : previousTrackId stack = none := by
  unfold previousTrackId
  rw [if_pos h]

/-- `previousTrackId` on a long-enough stack reads the entry before the
last and drops it when it is the empty string. -/
theorem previousTrackId_of_get? (stack : List String) (pid : String)
    (h2 : 2 ≤ stack.length)
    (hget : stack.get? (stack.length - 2) = some pid) :
    previousTrackId stack = if pid = "" then none else some pid := by
  unfold previousTrackId
  rw [if_neg (by omega), hget]

/-- A state whose journey stack holds the registered empty-string id just
before the last entry. -/
def emptyIdState : RailwayState Nat Nat :=
  { defaultTracks := [("", ⟨(1, 0), 0⟩), ("start", ⟨(0, 0), 1⟩)]
    journeyStack := ["", "start"]
    currentPosition := (0, 0)
    userDefinedTrackMaps := []
    contextMap := [] }

/-- A two-entry journey through the demo base map extended with a view
`a` at (1, 0); the current position is `a`'s. -/
def twoStepState : RailwayState Nat Nat :=
  { defaultTracks := [("start", ⟨(0, 0), 0⟩), ("a", ⟨(1, 0), 1⟩)]
    journeyStack := ["start", "a"]
    currentPosition := (1, 0)
    userDefinedTrackMaps := []
    contextMap := [("a", some 5)] }

/-- C5 counterexample: the entry immediately before the last is the empty
string, which resolves in the flattened registry, the stack has 2
entries, yet `returnToLast` changes nothing — because the source reads
`journeyStack[length - 2] || null` and the empty string is falsy.  The
claim demands that the last entry be removed here. -/
theorem returnToLast_empty_previous_id_counterexample :
    2 ≤ emptyIdState.journeyStack.length ∧
    emptyIdState.journeyStack.get?
      (emptyIdState.journeyStack.length - 2) = some "" ∧
    (allTracksAsList emptyIdState).find? (findById "") =
      some ⟨"", (1, 0), 0⟩ ∧
    returnToLast emptyIdState = emptyIdState ∧
    emptyIdState.journeyStack ≠ emptyIdState.journeyStack.dropLast := by
  decide

/-- C5 as amended: `returnToLast` is a no-op when the journey stack has
fewer than 2 entries, and also when the entry immediately before the last
is the empty string; otherwise, with previousId that entry, it is a no-op
when previousId does not resolve in the flattened registry, and when it
does resolve it removes exactly the last stack entry and moves the
current position to previousId's view position, every other state slice
(context map included) unchanged. -/
theorem returnToLast_characterization {ρ κ : Type} (s : RailwayState ρ κ) :
    (s.journeyStack.length < 2 → returnToLast s = s) ∧
    (∀ pid : String, 2 ≤ s.journeyStack.length →
      s.journeyStack.get? (s.journeyStack.length - 2) = some pid →
      ((pid = "" → returnToLast s = s) ∧
       (pid ≠ "" →
         (allTracksAsList s).find? (findById pid) = none →
         returnToLast s = s) ∧
       (∀ t : TrackIterDefinition ρ, pid ≠ "" →
         (allTracksAsList s).find? (findById pid) = some t →
         returnToLast s =
           { s with journeyStack := s.journeyStack.dropLast,
                    currentPosition := t.position }))) := by
  constructor
  · intro hlt
    unfold returnToLast
    rw [previousTrackId_eq_none_of_lt _ hlt]
  · intro pid h2 hget
    refine ⟨?_, ?_, ?_⟩
    · intro hpid
      unfold returnToLast
      rw [previousTrackId_of_get? _ _ h2 hget, if_pos hpid]
    · intro hpid hfind
      have hp : previousTrackId s.journeyStack = some pid := by
        rw [previousTrackId_of_get? _ _ h2 hget, if_neg hpid]
      unfold returnToLast
      simp only [hp, hfind]
    · intro t hpid hfind
      have hp : previousTrackId s.journeyStack = some pid := by
        rw [previousTrackId_of_get? _ _ h2 hget, if_neg hpid]
      unfold returnToLast
      simp only [hp, hfind]

/-- Witness for the amended C5 theorem: going back from `a` to `start` in
the two-step state. -/
theorem returnToLast_characterization_witness :
    returnToLast twoStepState =
      { twoStepState with
        journeyStack := twoStepState.journeyStack.dropLast,
        currentPosition := ((0 : Int), (0 : Int)) } :=
  ((returnToLast_characterization twoStepState).2 "start" (by decide)
      (by decide)).2.2 ⟨"start", (0, 0), 0⟩ (by decide) (by decide)

/-- C6 counterexample: same empty-string quirk for `returnDirection`.
The previous entry is the registered empty-string view at (1, 0), the
current view resolves, and the horizontal delta is +1, so the claim
demands "right" — but the source computes `journeyStack[length - 2] ||
null` and returns `null`. -/
theorem returnDirection_empty_previous_id_counterexample :
    emptyIdState.journeyStack.get?
      (emptyIdState.journeyStack.length - 2) = some "" ∧
    (allTracksAsList emptyIdState).find? (findById "") =
      some ⟨"", (1, 0), 0⟩ ∧
    (currentTrack emptyIdState).isSome = true ∧
    (0 : Int) <
      (⟨"", (1, 0), 0⟩ : TrackIterDefinition Nat).position.1 -
        emptyIdState.currentPosition.1 ∧
    returnDirection emptyIdState = none := by
  decide

/-- C6 as amended: `returnDirection` is `none` when there is no entry
before the last, when that entry is the empty string, or when its view or
the current view cannot be resolved; otherwise it is "left" when the
horizontal delta is negative, "right" when positive, and "top" when zero,
whatever the vertical delta. -/
theorem returnDirection_characterization {ρ κ : Type}
    (s : RailwayState ρ κ) :
    (s.journeyStack.length < 2 → returnDirection s = none) ∧
    (∀ pid : String, 2 ≤ s.journeyStack.length →
      s.journeyStack.get? (s.journeyStack.length - 2) = some pid →
      ((pid = "" → returnDirection s = none) ∧
       (pid ≠ "" →
         (allTracksAsList s).find? (findById pid) = none →
         returnDirection s = none) ∧
       (pid ≠ "" → currentTrack s = none → returnDirection s = none) ∧
       (∀ t c : TrackIterDefinition ρ, pid ≠ "" →
         (allTracksAsList s).find? (findById pid) = some t →
         currentTrack s = some c →
         returnDirection s =
           if t.position.1 - s.currentPosition.1 < 0 then some "left"
           else if 0 < t.position.1 - s.currentPosition.1 then some "right"
           else some "top"))) := by
  constructor
  · intro hlt
    unfold returnDirection
    rw [previousTrackId_eq_none_of_lt _ hlt]
  · intro pid h2 hget
    refine ⟨?_, ?_, ?_, ?_⟩
    · intro hpid
      unfold returnDirection
      rw [previousTrackId_of_get? _ _ h2 hget, if_pos hpid]
    · intro hpid hfind
      have hp : previousTrackId s.journeyStack = some pid := by
        rw [previousTrackId_of_get? _ _ h2 hget, if_neg hpid]
      unfold returnDirection
      cases hc : currentTrack s with
      | none => simp only [hp, hfind, hc]
      | some c => simp only [hp, hfind, hc]
    · intro hpid hcur
      have hp : previousTrackId s.journeyStack = some pid := by
        rw [previousTrackId_of_get? _ _ h2 hget, if_neg hpid]
      unfold returnDirection
      cases hf : (allTracksAsList s).find? (findById pid) with
      | none => simp only [hp, hf, hcur]
      | some t => simp only [hp, hf, hcur]
    · intro t c hpid hfind hcur
      have hp : previousTrackId s.journeyStack = some pid := by
        rw [previousTrackId_of_get? _ _ h2 hget, if_neg hpid]
      unfold returnDirection
      simp only [hp, hfind, hcur]

/-- Witness for the amended C6 theorem: in the two-step state the
previous view `start` lies to the left of the current position. -/
theorem returnDirection_characterization_witness :
    returnDirection twoStepState =
      (if (⟨"start", (0, 0), 0⟩ : TrackIterDefinition Nat).position.1 -
          twoStepState.currentPosition.1 < 0 then some "left"
       else if 0 <
          (⟨"start", (0, 0), 0⟩ : TrackIterDefinition Nat).position.1 -
            twoStepState.currentPosition.1 then some "right"
       else some "top") :=
  ((returnDirection_characterization twoStepState).2 "start" (by decide)
      (by decide)).2.2.2 ⟨"start", (0, 0), 0⟩ ⟨"a", (1, 0), 1⟩ (by decide)
    (by decide) (by decide)


/-- The ids stored in one owner's overlay: `keysToRemove` in the source's
`deregisterTracks`. -/
def ownerTrackIds {ρ κ : Type} (s : RailwayState ρ κ) (o : String) :
    List String :=
  match mapGet s.userDefinedTrackMaps o with
  | some m => m.map Prod.fst
  | none => []

/-- Unfolding equation for `deregisterTracks` with a present owner id. -/
theorem deregisterTracks_some_def {ρ κ : Type} (s : RailwayState ρ κ)
    (o : String) :
    deregisterTracks s (some o) =
      if o = "" then { s with userDefinedTrackMaps := [] }
      else
        { s with
          contextMap := (ownerTrackIds s o).foldl
            (fun acc k => mapDelete acc k) s.contextMap,
          userDefinedTrackMaps := mapDelete s.userDefinedTrackMaps o } := by
  unfold ownerTrackIds
  rfl

/-- A state with two overlay owners whose overlays share the id `p`. -/
def shadowState : RailwayState Nat Nat :=
  { defaultTracks := demoBase
    journeyStack := ["start"]
    currentPosition := (0, 0)
    userDefinedTrackMaps :=
      [("A", [("p", ⟨(1, 1), 1⟩)]), ("B", [("p", ⟨(2, 2), 2⟩)])]
    contextMap := [] }

/-- C7 counterexample: `p` is one of owner A's overlay ids, yet after
`deregisterTracks("A")` the flattened registry still resolves `p` —
owner B's hitherto shadowed entry surfaces — so the operation does not
remove exactly that owner's ids from the registry.  Also, the falsy check
`!id` makes the empty-string owner id take the remove-all path. -/
theorem deregisterTracks_shadowed_id_counterexample :
    "p" ∈ ownerTrackIds shadowState "A" ∧
    (allTracksAsList (deregisterTracks shadowState (some "A"))).find?
      (findById "p") = some ⟨"p", (2, 2), 2⟩ ∧
    (deregisterTracks shadowState (some "")).userDefinedTrackMaps = [] ∧
    shadowState.userDefinedTrackMaps ≠ [] := by
  decide

/-- C7 as amended: `deregisterTracks` with an explicit non-empty owner id
removes exactly that owner's overlay from the stored collection — the
registry is recomputed from the remaining overlays, so an id that another
overlay also defines may survive — and removes exactly the ids of that
owner's stored overlay from the context map; with no owner it removes all
overlays in one step but leaves every context-map entry intact. -/
theorem deregisterTracks_characterization {ρ κ : Type}
    (s : RailwayState ρ κ) (o : String) (ho : o ≠ "") :
    (deregisterTracks s (some o)).userDefinedTrackMaps =
      mapDelete s.userDefinedTrackMaps o ∧
    allTracksAsList (deregisterTracks s (some o)) =
      getTracksFromMap s.defaultTracks (mapDelete s.userDefinedTrackMaps o) ∧
    (∀ k : String, mapGet (deregisterTracks s (some o)).contextMap k =
      if k ∈ ownerTrackIds s o then none else mapGet s.contextMap k) ∧
    (deregisterTracks s none).userDefinedTrackMaps = [] ∧
    (deregisterTracks s none).contextMap = s.contextMap ∧
    allTracksAsList (deregisterTracks s none) =
      getTracksFromMap s.defaultTracks [] := by
  have hsome : deregisterTracks s (some o) =
      { s with
        contextMap := (ownerTrackIds s o).foldl
          (fun acc k => mapDelete acc k) s.contextMap,
        userDefinedTrackMaps := mapDelete s.userDefinedTrackMaps o } := by
    rw [deregisterTracks_some_def, if_neg ho]
  refine ⟨?_, ?_, ?_, rfl, rfl, rfl⟩
  · rw [hsome]
  · rw [hsome]
    rfl
  · intro k
    rw [hsome]
    exact mapGet_foldl_mapDelete (ownerTrackIds s o) s.contextMap k

/-- Witness for the amended C7 theorem, at the shadowed-overlay state with
owner A. -/
theorem deregisterTracks_characterization_witness :
    (deregisterTracks shadowState (some "A")).userDefinedTrackMaps =
      mapDelete shadowState.userDefinedTrackMaps "A" ∧
    mapGet (deregisterTracks shadowState (some "A")).contextMap "p" =
      (if "p" ∈ ownerTrackIds shadowState "A" then none
       else mapGet shadowState.contextMap "p") ∧
    (deregisterTracks shadowState none).contextMap =
      shadowState.contextMap :=
  ⟨(deregisterTracks_characterization shadowState "A" (by decide)).1,
   (deregisterTracks_characterization shadowState "A" (by decide)).2.2.1 "p",
   (deregisterTracks_characterization shadowState "A"
     (by decide)).2.2.2.2.1⟩

/-- C8 counterexample: with stack [start, a], both views resolving and
the current position equal to a's, running `returnToLast` then
`navigateToView("a")` restores the current position AND the whole journey
stack — its length included — contradicting the claim's assertion that
the original journey-stack length is not restored. -/
theorem back_then_forward_restores_counterexample :
    2 ≤ twoStepState.journeyStack.length ∧
    (allTracksAsList twoStepState).find? (findById "a") =
      some ⟨"a", (1, 0), 1⟩ ∧
    (navigateToView (returnToLast twoStepState) "a" (some 9)).journeyStack =
      twoStepState.journeyStack ∧
    (navigateToView (returnToLast twoStepState) "a"
        (some 9)).currentPosition = twoStepState.currentPosition := by
  decide

/-- C8 as amended: when the journey stack's last entry and the entry
before it (non-empty) both resolve, and the current position is the last
entry's view position, `returnToLast` followed by `navigateToView` with
the id just left restores the current position and the journey stack (net
length change 0); the composition is still not a pure inverse of the
whole state, because the context entry of the revisited id is
overwritten with the new context. -/
theorem back_then_forward_restores {ρ κ : Type} (s : RailwayState ρ κ)
    (last pid : String) (tLast tPrev : TrackIterDefinition ρ)
    (context : Option κ)
    (hlast : s.journeyStack.getLast? = some last)
    (hfl : (allTracksAsList s).find? (findById last) = some tLast)
    (hp : previousTrackId s.journeyStack = some pid)
    (hfp : (allTracksAsList s).find? (findById pid) = some tPrev)
    (hpos : s.currentPosition = tLast.position) :
    (navigateToView (returnToLast s) last context).currentPosition =
      s.currentPosition ∧
    (navigateToView (returnToLast s) last context).journeyStack =
      s.journeyStack ∧
    (navigateToView (returnToLast s) last context).journeyStack.length =
      s.journeyStack.length ∧
    (navigateToView (returnToLast s) last context).contextMap =
      mapSet s.contextMap last context := by
  have hret : returnToLast s =
      { s with journeyStack := s.journeyStack.dropLast,
               currentPosition := tPrev.position } := by
    unfold returnToLast
    simp only [hp, hfp]
  have hall : allTracksAsList (returnToLast s) = allTracksAsList s := by
    rw [hret]
    rfl
  have hfl' : (allTracksAsList (returnToLast s)).find? (findById last) =
      some tLast := by
    rw [hall]
    exact hfl
  have hid : tLast.id = last := findById_id_eq _ last tLast hfl
  have hnav : navigateToView (returnToLast s) last context =
      { returnToLast s with
        contextMap := mapSet (returnToLast s).contextMap tLast.id context,
        journeyStack := (returnToLast s).journeyStack ++ [tLast.id],
        currentPosition := tLast.position } := by
    unfold navigateToView
    rw [hfl']
  have hstack : (returnToLast s).journeyStack ++ [last] = s.journeyStack := by
    rw [hret]
    exact dropLast_append_getLast?_eq _ last hlast
  refine ⟨?_, ?_, ?_, ?_⟩
  · rw [hnav]
    exact hpos.symm
  · rw [hnav, hid]
    exact hstack
  · rw [hnav, hid]
    exact congrArg List.length hstack
  · rw [hnav, hid, hret]

/-- Witness for the amended C8 theorem, going a → start → a in the
two-step state. -/
theorem back_then_forward_restores_witness :
    (navigateToView (returnToLast twoStepState) "a" (some 9)).currentPosition =
      twoStepState.currentPosition ∧
    (navigateToView (returnToLast twoStepState) "a" (some 9)).journeyStack =
      twoStepState.journeyStack ∧
    (navigateToView (returnToLast twoStepState) "a"
        (some 9)).journeyStack.length = twoStepState.journeyStack.length ∧
    (navigateToView (returnToLast twoStepState) "a" (some 9)).contextMap =
      mapSet twoStepState.contextMap "a" (some 9) :=
  back_then_forward_restores twoStepState "a" "start" ⟨"a", (1, 0), 1⟩
    ⟨"start", (0, 0), 0⟩ (some 9) (by decide) (by decide) (by decide)
    (by decide) (by decide)

/-- `registerNewTracks` never touches the journey stack. -/
theorem registerNewTracks_journeyStack {ρ κ : Type} (s : RailwayState ρ κ)
    (id : String) (m : TrackMap ρ) (a : Option TrackPosition) :
    (registerNewTracks s id m a).journeyStack = s.journeyStack := rfl

/-- `deregisterTracks` never touches the journey stack. -/
theorem deregisterTracks_journeyStack {ρ κ : Type} (s : RailwayState ρ κ)
    (o : Option String) :
    (deregisterTracks s o).journeyStack = s.journeyStack := by
  cases o with
  | none => rfl
  | some o' =>
    rw [deregisterTracks_some_def]
    by_cases h : o' = ""
    · rw [if_pos h]
    · rw [if_neg h]

/-- `navigateToView` leaves the journey stack alone or appends one id. -/
theorem navigateToView_journeyStack {ρ κ : Type} (s : RailwayState ρ κ)
    (id : String) (context : Option κ) :
    (navigateToView s id context).journeyStack = s.journeyStack ∨
    ∃ x, (navigateToView s id context).journeyStack =
      s.journeyStack ++ [x] := by
  unfold navigateToView
  cases h : (allTracksAsList s).find? (findById id) with
  | none => exact Or.inl rfl
  | some t => exact Or.inr ⟨t.id, rfl⟩

/-- `returnToLast` either leaves the journey stack alone, or — only on a
stack of length at least 2 — removes exactly its last entry. -/
theorem returnToLast_journeyStack {ρ κ : Type} (s : RailwayState ρ κ) :
    (returnToLast s).journeyStack = s.journeyStack ∨
    (2 ≤ s.journeyStack.length ∧
      (returnToLast s).journeyStack = s.journeyStack.dropLast ∧
      (returnToLast s).journeyStack.length + 1 =
        s.journeyStack.length) := by
  cases hp : previousTrackId s.journeyStack with
  | none =>
    refine Or.inl ?_
    have hr : returnToLast s = s := by
      unfold returnToLast
      rw [hp]
    rw [hr]
  | some pid =>
    cases hf : (allTracksAsList s).find? (findById pid) with
    | none =>
      refine Or.inl ?_
      have hr : returnToLast s = s := by
        unfold returnToLast
        simp only [hp, hf]
      rw [hr]
    | some t =>
      have hr : returnToLast s =
          { s with journeyStack := s.journeyStack.dropLast,
                   currentPosition := t.position } := by
        unfold returnToLast
        simp only [hp, hf]
      have h2 := previousTrackId_some_two_le _ _ hp
      rw [hr]
      refine Or.inr ⟨h2, rfl, ?_⟩
      show s.journeyStack.dropLast.length + 1 = s.journeyStack.length
      rw [List.length_dropLast]
      omega

/-- C9: every state reachable from the initial state has a non-empty
journey stack; `navigateToView` never shrinks the stack, and
`returnToLast` shrinks it by exactly one entry and only when it holds at
least 2 entries. -/
theorem journeyStack_invariants {ρ κ : Type} (base : TrackMap ρ)
    (actions : List (RailAction ρ κ)) :
    (runActions (initialState base) actions).journeyStack ≠ [] ∧
    (∀ (s : RailwayState ρ κ) (id : String) (context : Option κ),
      s.journeyStack.length ≤
        (navigateToView s id context).journeyStack.length) ∧
    (∀ s : RailwayState ρ κ,
      (returnToLast s).journeyStack = s.journeyStack ∨
      (2 ≤ s.journeyStack.length ∧
        (returnToLast s).journeyStack = s.journeyStack.dropLast ∧
        (returnToLast s).journeyStack.length + 1 =
          s.journeyStack.length)) := by
  refine ⟨?_, ?_, fun s => returnToLast_journeyStack s⟩
  · have main : ∀ (acts : List (RailAction ρ κ)) (s : RailwayState ρ κ),
        s.journeyStack ≠ [] → (runActions s acts).journeyStack ≠ [] := by
      intro acts
      induction acts with
      | nil => exact fun s h => h
      | cons a acts ih =>
        intro s h
        have hstep : (applyAction s a).journeyStack ≠ [] := by
          cases a with
          | navigate id context =>
            show (navigateToView s id context).journeyStack ≠ []
            rcases navigateToView_journeyStack s id context with heq |
                ⟨x, heq⟩
            · rw [heq]
              exact h
            · rw [heq]
              simp
          | back =>
            show (returnToLast s).journeyStack ≠ []
            rcases returnToLast_journeyStack s with heq | ⟨h2, heq, _⟩
            · rw [heq]
              exact h
            · rw [heq]
              apply List.length_pos.mp
              rw [List.length_dropLast]
              omega
          | register o m anchor =>
            show (registerNewTracks s o m anchor).journeyStack ≠ []
            rw [registerNewTracks_journeyStack]
            exact h
          | deregister o =>
            show (deregisterTracks s o).journeyStack ≠ []
            rw [deregisterTracks_journeyStack]
            exact h
        exact ih (applyAction s a) hstep
    refine main actions (initialState base) ?_
    show ("start" :: [] : List String) ≠ []
    simp
  · intro s id context
    rcases navigateToView_journeyStack s id context with heq | ⟨x, heq⟩
    · rw [heq]
    · rw [heq, List.length_append]
      omega

/-- C10: deregistering a non-empty owner id under which no overlay is
registered returns the state completely unchanged. -/
theorem deregisterTracks_unknown_owner_noop {ρ κ : Type}
    (s : RailwayState ρ κ) (o : String) (ho : o ≠ "")
    (habs : mapGet s.userDefinedTrackMaps o = none) :
    deregisterTracks s (some o) = s := by
  have hk : ownerTrackIds s o = [] := by
    unfold ownerTrackIds
    rw [habs]
  rw [deregisterTracks_some_def, if_neg ho, hk,
    mapDelete_of_mapGet_none _ _ habs]
  rfl

/-- Witness for the C10 theorem: deregistering the never-registered owner
`ghost`. -/
theorem deregisterTracks_unknown_owner_noop_witness :
    deregisterTracks twoStepState (some "ghost") = twoStepState :=
  deregisterTracks_unknown_owner_noop twoStepState "ghost" (by decide)
    (by decide)

end Railway
